import Mathlib

/-!
Verification of the cloudfrontgate Traefik plugin (src/cloudfrontgate.go).

The development shallowly embeds the plugin's code in Lean:

* addresses are byte lists (each byte a Nat below 256), as in Go's net.IP;
* the Go standard-library routines the plugin calls (netip.ParseAddr with its
  parseIPv4 / parseIPv6 workers, net.ParseCIDR, net.CIDRMask, net.IP.To4,
  net.IPNet.Contains, time.ParseDuration, strings.Split) are translated from
  the Go sources;
* the plugin's own functions (parseCIDRs, parseResponse, newIPStore,
  ipstore.Contains, ipstore.Update, ipstore.fetch, createContext, New,
  ServeHTTP) are translated line by line from src/cloudfrontgate.go;
* the one real side effect, the HTTPS fetch of the CloudFront range list, is
  modelled by an oracle parameter of type Except String CFResponse giving the
  outcome of the transport (network error, non-200 status, read or decode
  failure on the error side; the decoded JSON object on the success side).

Loops that walk a string are written with an explicit fuel argument set to
one more than the length of the string; every iteration of the corresponding
Go loop consumes at least one character, so the fuel never runs out on the
paths Go can take, and structural recursion on the fuel keeps every
definition kernel-reducible.
-/

/-- Decimal digit test, Go: c is between ASCII 0 and 9. -/
def chDigit (c : Char) : Bool :=
  48 ≤ c.toNat && c.toNat ≤ 57

/-- Numeric value of a hex digit, Go netip parseIPv6 accepts 0-9, a-f, A-F. -/
def chHexVal (c : Char) : Option Nat :=
  if 48 ≤ c.toNat && c.toNat ≤ 57 then some (c.toNat - 48)
  else if 97 ≤ c.toNat && c.toNat ≤ 102 then some (c.toNat - 97 + 10)
  else if 65 ≤ c.toNat && c.toNat ≤ 70 then some (c.toNat - 65 + 10)
  else none

/-- Go strings.Split with a one-character separator: the list of maximal
separator-free pieces; always nonempty, in particular [[]] on the empty
string, matching Go's behaviour of returning one (empty) piece. -/
def splitOnChar (sep : Char) : List Char → List (List Char)
  | [] => [[]]
  | c :: rest =>
    if c = sep then [] :: splitOnChar sep rest
    else
      match splitOnChar sep rest with
      | [] => [[c]]
      | h :: t => (c :: h) :: t

/-- Split a string at the first occurrence of a character, Go
strings.IndexByte followed by slicing; none when the character is absent. -/
def breakAtChar (sep : Char) : List Char → Option (List Char × List Char)
  | [] => none
  | c :: rest =>
    if c = sep then some ([], rest)
    else (breakAtChar sep rest).map (fun p => (c :: p.1, p.2))

/-- Decimal value of a digit string (used on strings already checked to be
all digits). -/
def digitsVal (l : List Char) : Nat :=
  l.foldl (fun acc c => acc * 10 + (c.toNat - 48)) 0

/-- One dotted-decimal field of an IPv4 address, as accepted by Go
netip.parseIPv4Fields: nonempty, all digits, no leading zero, value at most
255.  (Go rejects a leading zero as soon as a second digit follows one, and
rejects a value above 255 as soon as it is reached; for all-digit fields both
conditions are equivalent to the checks below.) -/
def validV4Field (f : List Char) : Bool :=
  !f.isEmpty && f.all chDigit && !(1 < f.length && f.head? = some '0')
    && digitsVal f ≤ 255

/-- Go netip.parseIPv4: four dot-separated decimal fields.  Go's scanner
rejects an empty field, a non-digit character, a fifth field, a leading zero
and a value above 255; splitting on the dot and validating each field accepts
exactly the same strings and produces the same four bytes. -/
def parseIPv4 (s : List Char) : Option (List Nat) :=
  let fs := splitOnChar '.' s
  if fs.length = 4 && fs.all validV4Field then some (fs.map digitsVal)
  else none

/-- Maximal run of hex digits with Go's running overflow check: none as soon
as the accumulator would exceed 0xFFFF, otherwise the value, the number of
digits consumed and the rest of the string. -/
def leadingHex : List Char → Nat → Nat → Option (Nat × Nat × List Char)
  | [], acc, k => some (acc, k, [])
  | c :: rest, acc, k =>
    match chHexVal c with
    | none => some (acc, k, c :: rest)
    | some v =>
      let acc' := acc * 16 + v
      if 0xFFFF < acc' then none else leadingHex rest acc' (k + 1)

/-- Loop body of Go netip.parseIPv6, translated clause by clause.  Arguments:
fuel, remaining string, number of bytes already produced, bytes produced so
far, position of the ellipsis if one was seen.  Returns the loop's exit
state (bytes, count, ellipsis, unconsumed string) or none on the error
returns inside the loop. -/
def v6loop : Nat → List Char → Nat → List Nat → Option Nat →
    Option (List Nat × Nat × Option Nat × List Char)
  | 0, _, _, _, _ => none
  | fuel + 1, s, i, ip, ell =>
    if 16 ≤ i then some (ip, i, ell, s)
    else
      match leadingHex s 0 0 with
      | none => none
      | some (acc, k, rest) =>
        if k = 0 then none
        else if rest.head? = some '.' then
          -- embedded IPv4 must replace the final two 16-bit fields
          if ell = none && i ≠ 12 then none
          else if 16 < i + 4 then none
          else
            match parseIPv4 s with
            | none => none
            | some b4 => some (ip ++ b4, i + 4, ell, [])
        else
          let ip' := ip ++ [acc / 256, acc % 256]
          match rest with
          | [] => some (ip', i + 2, ell, [])
          | c :: rest2 =>
            if c ≠ ':' then none
            else
              match rest2 with
              | [] => none   -- a colon must be followed by more characters
              | c2 :: rest3 =>
                if c2 = ':' then
                  if ell.isSome then none
                  else
                    match rest3 with
                    | [] => some (ip', i + 2, some (i + 2), [])
                    | _ => v6loop fuel rest3 (i + 2) ip' (some (i + 2))
                else v6loop fuel rest2 (i + 2) ip' ell

/-- Checks Go netip.parseIPv6 performs after its loop: no trailing garbage,
expansion of the ellipsis when fewer than 16 bytes were produced, rejection
of an ellipsis that would expand to nothing. -/
def v6finish : Option (List Nat × Nat × Option Nat × List Char) → Option (List Nat)
  | none => none
  | some (ip, i, ell, srem) =>
    if !srem.isEmpty then none
    else if i < 16 then
      match ell with
      | none => none
      | some e => some (ip.take e ++ List.replicate (16 - i) 0 ++ ip.drop e)
    else if ell.isSome then none
    else some ip

/-- Go netip.parseIPv6.  A percent sign introduces a zone; net.ParseIP and
net.ParseCIDR reject every address carrying a zone (and netip itself rejects
an empty zone), so at this layer any percent sign means failure.  The two
leading colons special case mirrors the pre-loop code. -/
def parseIPv6 (s : List Char) : Option (List Nat) :=
  if s.contains '%' then none
  else
    match s with
    | ':' :: ':' :: rest =>
      if rest.isEmpty then some (List.replicate 16 0)
      else v6finish (v6loop (rest.length + 1) rest 0 [] (some 0))
    | _ => v6finish (v6loop (s.length + 1) s 0 [] none)

/-- Go netip.ParseAddr's dispatch: the first dot, colon or percent sign in
the string decides the family; a leading-first percent sign or no special
character at all is an error.  The Bool records whether the IPv4 branch was
taken (netip's Is4), the bytes are 4 for IPv4 and 16 for IPv6. -/
def parseAddrCore (s : List Char) : Option (Bool × List Nat) :=
  match s.find? (fun c => c = '.' || c = ':' || c = '%') with
  | some c =>
    if c = '.' then (parseIPv4 s).map (fun b => (true, b))
    else if c = ':' then (parseIPv6 s).map (fun b => (false, b))
    else none
  | none => none

/-- The twelve leading bytes of an IPv4-mapped IPv6 address. -/
def v4InV6Header : List Nat :=
  [0, 0, 0, 0, 0, 0, 0, 0, 0, 0, 255, 255]

/-- Go net.ParseIP: a 16-byte slice on success (an IPv4 address comes back
in its IPv4-mapped form, netip's As16), nil on failure. -/
def netParseIP (s : List Char) : Option (List Nat) :=
  (parseAddrCore s).map (fun p => if p.1 then v4InV6Header ++ p.2 else p.2)

/-- Go net.IP.To4: a 4-byte slice unchanged, the tail of a 16-byte
IPv4-mapped slice, nil otherwise. -/
def goTo4 (ip : List Nat) : Option (List Nat) :=
  if ip.length = 4 then some ip
  else if ip.length = 16 && ip.take 12 = v4InV6Header then some (ip.drop 12)
  else none

/-- Byte i of Go net.CIDRMask's output, built like Go's loop: full bytes of
255 while at least eight mask bits remain, then the complement of 0xFF
shifted right by the remaining bit count, then zero bytes. -/
def cidrMaskBytes : Nat → Nat → List Nat
  | _, 0 => []
  | n, l + 1 =>
    if 8 ≤ n then 255 :: cidrMaskBytes (n - 8) l
    else (255 ^^^ (255 >>> n)) :: cidrMaskBytes 0 l

/-- Go net.dtoi: decimal prefix of a string, returning the value, the number
of characters consumed and an ok flag; the value saturates (with ok false)
at the constant big = 0xFFFFFF, and consuming no digit is not ok. -/
def dtoiLoop : List Char → Nat → Nat → Nat × Nat × Bool
  | [], n, i => if i = 0 then (0, 0, false) else (n, i, true)
  | c :: rest, n, i =>
    if chDigit c then
      let n' := n * 10 + (c.toNat - 48)
      if 0xFFFFFF ≤ n' then (0xFFFFFF, i, false)
      else dtoiLoop rest n' (i + 1)
    else if i = 0 then (0, 0, false) else (n, i, true)

/-- A network range as Go's net.IPNet: base address (already masked, as
net.ParseCIDR returns it) and mask, 4 bytes each for IPv4 and 16 bytes each
for IPv6. -/
structure IPNet where
  ip : List Nat
  mask : List Nat
  deriving DecidableEq, Repr

/-- Go net.ParseCIDR: split at the first slash, parse the address part with
netip.ParseAddr (zones rejected), parse the mask part with dtoi requiring
every character consumed and a value within the address family's bit length,
then return the masked base address and the mask.  For an IPv4 address the
returned slices are 4 bytes, for IPv6 16 bytes. -/
def parseCIDR (s : List Char) : Option IPNet :=
  match breakAtChar '/' s with
  | none => none
  | some (addr, maskStr) =>
    match parseAddrCore addr with
    | none => none
    | some (is4, bytes) =>
      let bitLen := if is4 then 32 else 128
      let d := dtoiLoop maskStr 0 0
      if d.2.2 && d.2.1 = maskStr.length && d.1 ≤ bitLen then
        let m := cidrMaskBytes d.1 (bitLen / 8)
        some ⟨List.zipWith Nat.land bytes m, m⟩
      else none

/-- The byte-comparison loop of Go net.IPNet.Contains: each address byte
masked equals the network byte masked.  The three lists always have the same
length for a network built by net.ParseCIDR and an address that passed the
length check (Go would panic on a shorter mask). -/
def maskedEq : List Nat → List Nat → List Nat → Bool
  | nb :: ns, xb :: xs, mb :: ms =>
    (Nat.land nb mb = Nat.land xb mb : Bool) && maskedEq ns xs ms
  | _, _, _ => true

/-- Go net.networkNumberAndMask: normalize the network base to 4 bytes when
it is IPv4-mapped, then bring the mask to the same length; the nil-nil error
returns are modelled by a pair of empty lists. -/
def networkNumberAndMask (n : IPNet) : List Nat × List Nat :=
  match goTo4 n.ip with
  | some ip4 =>
    if n.mask.length = 4 then (ip4, n.mask)
    else if n.mask.length = 16 then (ip4, n.mask.drop 12)
    else ([], [])
  | none =>
    if n.ip.length ≠ 16 then ([], [])
    else if n.mask.length = 4 then ([], [])
    else if n.mask.length = 16 then (n.ip, n.mask)
    else ([], [])

/-- Go net.IPNet.Contains: normalize the queried address with To4, compare
lengths, then compare all bytes under the mask. -/
def ipNetContains (n : IPNet) (ip : List Nat) : Bool :=
  let p := networkNumberAndMask n
  let ip' := match goTo4 ip with
             | some x => x
             | none => ip
  if ip'.length = p.1.length then maskedEq p.1 ip' p.2 else false

/-- parseCIDRs from src/cloudfrontgate.go: for each entry, append the
literal "/32" when the entry has no slash, then net.ParseCIDR; the first
failure aborts the whole batch, otherwise the parsed nets are collected in
order. -/
def parseCIDRs : List String → Except String (List IPNet)
  | [] => .ok []
  | ip :: rest =>
    let ipChars := if ip.data.contains '/' then ip.data else ip.data ++ "/32".data
    match parseCIDR ipChars with
    | none => .error "failed to parse CIDR"
    | some n =>
      match parseCIDRs rest with
      | .error e => .error e
      | .ok ns => .ok (n :: ns)

/-- CFResponse from src/cloudfrontgate.go: the decoded JSON body of the
CloudFront endpoint, two named lists of textual ranges. -/
structure CFResponse where
  GlobalIPList : List String
  RegionalEdgeIPList : List String
  deriving Repr

/-- parseResponse from src/cloudfrontgate.go: parse the global list, then
the regional-edge list, and concatenate global before regional. -/
def parseResponse (resp : CFResponse) : Except String (List IPNet) :=
  match parseCIDRs resp.GlobalIPList with
  | .error e => .error ("failed to parse CLOUDFRONT_GLOBAL_IP_LIST CIDRs: " ++ e)
  | .ok g =>
    match parseCIDRs resp.RegionalEdgeIPList with
    | .error e => .error ("failed to parse CLOUDFRONT_REGIONAL_EDGE_IP_LIST CIDRs: " ++ e)
    | .ok r => .ok (g ++ r)

/-- The ipstore's atomic.Value slot: none models a value on which the type
assertion to a slice of nets fails (nothing stored yet), some l a stored
slice.  atomic.Value.Load and Store are single indivisible reads and writes
of this slot. -/
abbrev StoreCell := Option (List IPNet)

/-- newIPStore from src/cloudfrontgate.go: the fresh store immediately
stores an empty slice (the CloudFront API URL it also records plays no role
in the store's state). -/
def newIPStore : StoreCell := some []

/-- ipstore.Contains from src/cloudfrontgate.go: load the slot once; a
failed type assertion returns false; otherwise scan the slice and return
true on the first containing range (the loop with early return is List.any). -/
def ipstoreContains (cell : StoreCell) (ip : List Nat) : Bool :=
  match cell with
  | none => false
  | some cidrs => cidrs.any (fun n => ipNetContains n ip)

/-- The two context values createContext installs, as ipstore.Update and
ipstore.fetch read them back by type assertion: none models an absent or
wrongly-typed value. -/
structure GoCtx where
  httpTimeout : Option Int
  trustedIPs : Option (List IPNet)

/-- createContext from src/cloudfrontgate.go. -/
def createContext (timeout : Int) (trustedIPs : List IPNet) : GoCtx :=
  ⟨some timeout, some trustedIPs⟩

/-- HTTPTimeoutDefault from src/cloudfrontgate.go. -/
def HTTPTimeoutDefault : Int := 5

/-- ipstore.fetch from src/cloudfrontgate.go.  The transport oracle stands
for the request construction, the HTTP round trip, the status check, the
body read and the JSON decode: any of those failing is the error case.  The
function first type-asserts the timeout from the context, then on transport
success runs parseResponse. -/
def ipstoreFetch (ctx : GoCtx) (transport : Except String CFResponse) :
    Except String (List IPNet) :=
  match ctx.httpTimeout with
  | none => .error "invalid timeout value"
  | some _ =>
    match transport with
    | .error e => .error e
    | .ok resp => parseResponse resp

/-- ipstore.Update from src/cloudfrontgate.go: type-assert the trusted IPs
from the context, fetch, and on success store trusted followed by fetched;
the pair returned is Go's error result together with the store slot after
the call (unchanged on every error path). -/
def ipstoreUpdate (cell : StoreCell) (ctx : GoCtx)
    (transport : Except String CFResponse) : Except String Unit × StoreCell :=
  match ctx.trustedIPs with
  | none => (.error "invalid trusted IPs value", cell)
  | some trusted =>
    match ipstoreFetch ctx transport with
    | .error e => (.error e, cell)
    | .ok fetched => (.ok (), some (trusted ++ fetched))

/-- The gate's binary decision. -/
inductive Decision where
  | allow
  | reject
  deriving DecidableEq, Repr

/-- Outcome of one ServeHTTP call: the decision, whether the downstream
handler was invoked, and the store slot after the call. -/
structure GateResult where
  decision : Decision
  nextCalled : Bool
  cell : StoreCell

/-- CloudFrontGate.ServeHTTP from src/cloudfrontgate.go: take the text
before the first colon of the request's RemoteAddr (strings.Split on the
colon, element zero), net.ParseIP it, and reject with 403 (downstream never
invoked) when parsing fails or the store does not contain the address;
otherwise delegate downstream.  The function reads the store slot through
Contains only, so the slot it returns is the one it was given. -/
def ServeHTTP (cell : StoreCell) (remoteAddr : String) : GateResult :=
  let host := (splitOnChar ':' remoteAddr.data).headD []
  match netParseIP host with
  | none => ⟨.reject, false, cell⟩
  | some ip =>
    if ipstoreContains cell ip then ⟨.allow, true, cell⟩
    else ⟨.reject, false, cell⟩

/-- Go time.leadingInt: decimal prefix with overflow checks against 2^63;
returns the value and the rest, or none on overflow. -/
def leadingInt : List Char → Nat → Option (Nat × List Char)
  | [], x => some (x, [])
  | c :: rest, x =>
    if chDigit c then
      if 2 ^ 63 / 10 - 1 < x then none
      else
        let x' := x * 10 + (c.toNat - 48)
        if 2 ^ 63 < x' then none else leadingInt rest x'
    else some (x, c :: rest)

/-- Go time.leadingFraction: decimal digits after the point; once the value
would overflow it stops accumulating but keeps consuming (and in Go keeps
scaling a float64; the scale below stops growing with the value, which is
only used through the exact quotient in durIter and agrees on every
non-overflowing input). -/
def leadingFraction : List Char → Nat → Nat → Bool → Nat × Nat × List Char
  | [], x, sc, _ => (x, sc, [])
  | c :: rest, x, sc, ovf =>
    if chDigit c then
      if ovf then leadingFraction rest x sc ovf
      else if (2 ^ 63 - 1) / 10 < x then leadingFraction rest x sc true
      else
        let y := x * 10 + (c.toNat - 48)
        if 2 ^ 63 < y then leadingFraction rest x sc true
        else leadingFraction rest y (sc * 10) false
    else (x, sc, c :: rest)

/-- Go time's unit map: ns, us (in its three spellings), ms, s, m, h, in
nanoseconds. -/
def unitVal (u : List Char) : Option Nat :=
  if u = "ns".data then some 1
  else if u = "us".data then some 1000
  else if u = "µs".data then some 1000
  else if u = "μs".data then some 1000
  else if u = "ms".data then some 1000000
  else if u = "s".data then some 1000000000
  else if u = "m".data then some 60000000000
  else if u = "h".data then some 3600000000000
  else none

/-- One iteration of Go time.ParseDuration's loop: a number (integer part,
optional fractional part), then a unit, with Go's overflow checks.  The
fractional contribution is Go's uint64(float64(f) * (float64(unit)/scale)),
computed here as the exact quotient f * unit / scale. -/
def durIter : Nat → List Char → Nat → Option Nat
  | 0, _, _ => none
  | _ + 1, [], d => some d
  | fuel + 1, s@(c0 :: _), d =>
    if !(c0 = '.' || chDigit c0) then none
    else
      match leadingInt s 0 with
      | none => none
      | some (v, s2) =>
        let pre := s2.length ≠ s.length
        let fp : Nat × Nat × List Char × Bool :=
          match s2 with
          | '.' :: s2' =>
            let r := leadingFraction s2' 0 1 false
            (r.1, r.2.1, r.2.2, r.2.2.length ≠ s2'.length)
          | _ => (0, 1, s2, false)
        if !pre && !fp.2.2.2 then none
        else
          let u := fp.2.2.1.takeWhile (fun c => !(c = '.' || chDigit c))
          let s3 := fp.2.2.1.drop u.length
          if u.isEmpty then none
          else
            match unitVal u with
            | none => none
            | some unit =>
              if 2 ^ 63 / unit < v then none
              else
                let v1 := v * unit
                let v2 := if 0 < fp.1 then v1 + fp.1 * unit / fp.2.1 else v1
                if 2 ^ 63 < v2 then none
                else
                  let d' := d + v2
                  if 2 ^ 63 < d' then none
                  else durIter fuel s3 d'

/-- Go time.ParseDuration: optional sign, the special case of a bare zero,
then one or more number-unit groups; the final value must fit in an int64. -/
def parseDuration (s0 : List Char) : Option Int :=
  let sn : Bool × List Char :=
    match s0 with
    | '-' :: r => (true, r)
    | '+' :: r => (false, r)
    | _ => (false, s0)
  if sn.2 = ['0'] then some 0
  else if sn.2.isEmpty then none
  else
    match durIter (sn.2.length + 1) sn.2 0 with
    | none => none
    | some d =>
      if sn.1 then some (-(d : Int))
      else if 2 ^ 63 - 1 < d then none
      else some (d : Int)

/-- Config from src/cloudfrontgate.go. -/
structure Config where
  RefreshInterval : String
  AllowedIPs : List String

/-- The CloudFrontGate value New builds: the store slot after the first
synchronous update, the operator ranges parsed once, and the refresh
interval in nanoseconds. -/
structure CloudFrontGate where
  cell : StoreCell
  trustedIPs : List IPNet
  refreshInterval : Int

/-- New from src/cloudfrontgate.go: make the store, parse the refresh
interval, parse the operator-supplied ranges, build the update context with
the default timeout, run one synchronous update (its transport outcome is
the oracle argument) and fail construction on any error; the background
refresh goroutine only repeats the same update. -/
def New (config : Config) (transport : Except String CFResponse) :
    Except String CloudFrontGate :=
  let ips := newIPStore
  match parseDuration config.RefreshInterval.data with
  | none => .error "failed to parse refresh interval"
  | some d =>
    match parseCIDRs config.AllowedIPs with
    | .error e => .error ("failed to parse trusted IPs: " ++ e)
    | .ok trusted =>
      let ctxUpdate := createContext HTTPTimeoutDefault trusted
      match ipstoreUpdate ips ctxUpdate transport with
      | (.error e, _) => .error ("failed to update CloudFront IP ranges: " ++ e)
      | (.ok _, cell') => .ok ⟨cell', trusted, d⟩

/-- The successive actions of a successful ipstore.Update run, for the
publication-atomicity claim: the context type assertion, the fetch, the
building of the combined slice (all local), and the single atomic Store. -/
inductive UpdAction where
  | readCtx
  | fetchRemote
  | buildSlice
  | storeSlice

/-- How each action of a successful update run acts on the shared store
slot: only the final atomic Store writes it; the other three lines of
ipstore.Update touch no shared state. -/
def applyUpdAction (trusted fetched : List IPNet) (cell : StoreCell) :
    UpdAction → StoreCell
  | .readCtx => cell
  | .fetchRemote => cell
  | .buildSlice => cell
  | .storeSlice => some (trusted ++ fetched)

/-- The shared store slot after the first k actions of a successful update
run that started from cell. -/
def updSharedAfter (cell : StoreCell) (trusted fetched : List IPNet) (k : Nat) :
    StoreCell :=
  (([UpdAction.readCtx, .fetchRemote, .buildSlice, .storeSlice].take k).foldl
    (applyUpdAction trusted fetched) cell)

example : parseIPv4 "10.0.0.5".data = some [10, 0, 0, 5] := by decide
example : parseIPv4 "999.1.1.1".data = none := by decide
example : parseIPv4 "10.0.0".data = none := by decide
example : parseIPv4 "010.0.0.1".data = none := by decide
example : parseIPv6 "::1".data =
    some [0, 0, 0, 0, 0, 0, 0, 0, 0, 0, 0, 0, 0, 0, 0, 1] := by decide
example : netParseIP "203.0.113.9".data =
    some [0, 0, 0, 0, 0, 0, 0, 0, 0, 0, 255, 255, 203, 0, 113, 9] := by decide
example : netParseIP "not-an-ip".data = none := by decide
example : parseCIDR "10.0.0.0/24".data =
    some ⟨[10, 0, 0, 0], [255, 255, 255, 0]⟩ := by decide
example : parseCIDR "10.0.0.7/24".data =
    some ⟨[10, 0, 0, 0], [255, 255, 255, 0]⟩ := by decide
example : (parseCIDR "10.0.0.0/24".data).map
    (fun n => ipNetContains n (netParseIP "10.0.0.5".data).iget) = some true := by decide
example : (parseCIDR "10.0.1.0/24".data).map
    (fun n => ipNetContains n (netParseIP "10.0.0.5".data).iget) = some false := by decide

example : parseDuration "24h".data = some 86400000000000 := by decide
example : parseDuration "0s".data = some 0 := by decide
example : parseDuration "-5s".data = some (-5000000000) := by decide
example : parseDuration "0".data = some 0 := by decide
example : parseDuration "".data = none := by decide
example : parseDuration "1x".data = none := by decide
example : parseDuration "1.5s".data = some 1500000000 := by decide
example : parseCIDRs ["192.168.1.0/24"] =
    .ok [⟨[192, 168, 1, 0], [255, 255, 255, 0]⟩] := rfl
example : parseCIDRs ["::1"] =
    .ok [⟨List.replicate 16 0, [255, 255, 255, 255] ++ List.replicate 12 0⟩] := rfl
example : (parseCIDRs ["::1"]).map (fun l => l.map
    (fun n => ipNetContains n (netParseIP "::2".data).iget)) = .ok [true] := rfl
example : (ServeHTTP (some [⟨[203, 0, 113, 0], [255, 255, 255, 0]⟩])
    "203.0.113.9:54321").decision = .allow := by decide
example : (ServeHTTP (some [⟨[203, 0, 113, 0], [255, 255, 255, 0]⟩])
    "8.8.8.8:1").decision = .reject := by decide
example : (ServeHTTP (some [⟨[203, 0, 113, 0], [255, 255, 255, 0]⟩])
    "not-an-ip:80").decision = .reject := by decide
example : (ServeHTTP (some []) "[::1]:80").decision = .reject := by decide
example : (ServeHTTP (some []) "::1").decision = .reject := by decide
example : New ⟨"0s", []⟩ (.ok ⟨[], []⟩) = .ok ⟨some [], [], 0⟩ := rfl
example : New ⟨"xx", []⟩ (.ok ⟨[], []⟩) =
    .error "failed to parse refresh interval" := rfl
example : netParseIP "::ffff:1.2.3.4".data =
    some [0,0,0,0,0,0,0,0,0,0,255,255,1,2,3,4] := by decide
example : netParseIP "fe80::1%eth0".data = none := by decide
example : parseIPv6 "1:2:3:4:5:6:7:8".data =
    some [0,1,0,2,0,3,0,4,0,5,0,6,0,7,0,8] := by decide
example : parseIPv6 "1:2:3:4:5:6:7".data = none := by decide
example : parseIPv6 "::".data = some (List.replicate 16 0) := by decide
example : parseIPv6 "1::2::3".data = none := by decide

/-- Claim C1: for every address and every store state, Contains is true
exactly when the stored slice has a range containing the address under the
masked byte comparison of net.IPNet.Contains; it is false when the loaded
reference is absent or invalid (the none cell). -/
theorem ipstoreContains_iff_exists_range (cell : StoreCell) (ip : List Nat) :
    ipstoreContains cell ip = true ↔
      ∃ l, cell = some l ∧ ∃ n ∈ l, ipNetContains n ip = true := by
  cases cell with
  | none => simp [ipstoreContains]
  | some l => simp [ipstoreContains, List.any_eq_true]

/-- Claim C2: when the underlying fetch of an update attempt fails (network
error, non-200 status, decode failure or parse failure all surface as an
error from ipstore.fetch), the store slot is left untouched, so every
subsequent Contains call answers exactly as before the failed attempt. -/
theorem ipstoreUpdate_fetch_failure_preserves_contains (cell : StoreCell)
    (ctx : GoCtx) (transport : Except String CFResponse) (e : String)
    (h : ipstoreFetch ctx transport = .error e) :
    (ipstoreUpdate cell ctx transport).2 = cell ∧
      ∀ ip, ipstoreContains (ipstoreUpdate cell ctx transport).2 ip =
        ipstoreContains cell ip := by
  cases hts : ctx.trustedIPs with
  | none => simp [ipstoreUpdate, hts]
  | some t => simp [ipstoreUpdate, hts, h]

theorem ipstoreUpdate_fetch_failure_preserves_contains_witness :
    (ipstoreUpdate (some []) (createContext 5 []) (.error "netsplit")).2 = some [] :=
  (ipstoreUpdate_fetch_failure_preserves_contains (some [])
    (createContext 5 []) (.error "netsplit") "netsplit" rfl).1

/-- Claim C3, counterexample: store initialization does not install the
operator-supplied ranges.  With operator range 192.168.1.0/24 (which parses,
and which contains 192.168.1.5), the freshly initialized store holds the
empty slice and Contains answers false for 192.168.1.5, where the claim
demands true. -/
theorem newIPStore_not_operator_ranges_cex :
    parseCIDRs ["192.168.1.0/24"] =
      .ok [⟨[192, 168, 1, 0], [255, 255, 255, 0]⟩] ∧
    netParseIP "192.168.1.5".data = some (v4InV6Header ++ [192, 168, 1, 5]) ∧
    ipNetContains ⟨[192, 168, 1, 0], [255, 255, 255, 0]⟩
      (v4InV6Header ++ [192, 168, 1, 5]) = true ∧
    newIPStore = some [] ∧
    ipstoreContains newIPStore (v4InV6Header ++ [192, 168, 1, 5]) = false :=
  ⟨rfl, rfl, by decide, rfl, rfl⟩

/-- Claim C3 as amended: newIPStore initializes the current set to the empty
slice, independent of the operator-supplied ranges, so before the first
successful update every Contains call returns false; the operator ranges
first take effect at the first successful update, which New performs
synchronously and whose failure fails construction. -/
theorem newIPStore_empty_denies_all :
    newIPStore = some [] ∧ ∀ ip, ipstoreContains newIPStore ip = false :=
  ⟨rfl, fun _ => rfl⟩

/-- Claim C4: a successful refresh stores exactly the operator-supplied
ranges followed by the fetched remote ranges, the remote portion being the
decoded global list followed by the regional-edge list; Contains then tests
membership in exactly that combined slice. -/
theorem ipstoreUpdate_success_publishes_combined (cell : StoreCell)
    (timeout : Int) (trusted g r : List IPNet) (resp : CFResponse)
    (hg : parseCIDRs resp.GlobalIPList = .ok g)
    (hr : parseCIDRs resp.RegionalEdgeIPList = .ok r) :
    ipstoreUpdate cell (createContext timeout trusted) (.ok resp) =
      (.ok (), some (trusted ++ (g ++ r))) ∧
    ∀ ip, ipstoreContains
        (ipstoreUpdate cell (createContext timeout trusted) (.ok resp)).2 ip = true ↔
      ∃ n ∈ trusted ++ (g ++ r), ipNetContains n ip = true := by
  have hu : ipstoreUpdate cell (createContext timeout trusted) (.ok resp) =
      (.ok (), some (trusted ++ (g ++ r))) := by
    simp [ipstoreUpdate, createContext, ipstoreFetch, parseResponse, hg, hr]
  refine ⟨hu, fun ip => ?_⟩
  rw [hu]
  simp only [ipstoreContains, List.any_eq_true, List.mem_append]

theorem ipstoreUpdate_success_publishes_combined_witness :
    ipstoreUpdate (some []) (createContext 5 [⟨[192, 168, 1, 0], [255, 255, 255, 0]⟩])
      (.ok ⟨["203.0.113.0/24"], ["13.113.203.0/24"]⟩) =
    (.ok (), some ([⟨[192, 168, 1, 0], [255, 255, 255, 0]⟩] ++
      ([⟨[203, 0, 113, 0], [255, 255, 255, 0]⟩] ++
       [⟨[13, 113, 203, 0], [255, 255, 255, 0]⟩]))) :=
  (ipstoreUpdate_success_publishes_combined (some []) 5
    [⟨[192, 168, 1, 0], [255, 255, 255, 0]⟩]
    [⟨[203, 0, 113, 0], [255, 255, 255, 0]⟩]
    [⟨[13, 113, 203, 0], [255, 255, 255, 0]⟩]
    ⟨["203.0.113.0/24"], ["13.113.203.0/24"]⟩ rfl rfl).1

/-- Claim C7: once the fetch has produced a well-formed range sequence, the
rest of ipstore.Update cannot fail and performs no further effects: it is
the pure construction of the combined slice and the single store of it, and
the error result is always the success value. -/
theorem ipstoreUpdate_ok_given_fetched (cell : StoreCell) (timeout : Int)
    (trusted fetched : List IPNet) (transport : Except String CFResponse)
    (h : ipstoreFetch (createContext timeout trusted) transport = .ok fetched) :
    ipstoreUpdate cell (createContext timeout trusted) transport =
      (.ok (), some (trusted ++ fetched)) := by
  simp only [createContext] at h
  simp [ipstoreUpdate, createContext, h]

theorem ipstoreUpdate_ok_given_fetched_witness :
    ipstoreUpdate (some []) (createContext 5 []) (.ok ⟨[], []⟩) =
      (.ok (), some ([] ++ [])) :=
  ipstoreUpdate_ok_given_fetched (some []) 5 [] [] (.ok ⟨[], []⟩) rfl

/-- Claim C8, evaluated at the failing input: the string 0s parses as a
duration (of zero), so New never takes its only interval-related error
return and construction succeeds, returning a gate whose refresh interval is
zero; likewise for a negative duration.  The claim (and the README's
documented minimum of one second) demand a construction failure here. -/
theorem New_accepts_zero_interval :
    parseDuration "0s".data = some 0 ∧
    New ⟨"0s", []⟩ (.ok ⟨[], []⟩) = .ok ⟨some [], [], 0⟩ ∧
    New ⟨"-5s", []⟩ (.ok ⟨[], []⟩) = .ok ⟨some [], [], -5000000000⟩ :=
  ⟨rfl, rfl, rfl⟩

/-- Claim C9: decomposing a successful update run into its successive
actions, of which only the final atomic.Value.Store touches the shared slot,
a Contains call interleaved after any number of those actions loads either
the full pre-update slice or the full post-update slice, never a mixture. -/
theorem ipstoreUpdate_publish_indivisible (cell : StoreCell)
    (trusted fetched : List IPNet) (k : Nat) :
    updSharedAfter cell trusted fetched k = cell ∨
      updSharedAfter cell trusted fetched k = some (trusted ++ fetched) := by
  match k with
  | 0 => exact Or.inl rfl
  | 1 => exact Or.inl rfl
  | 2 => exact Or.inl rfl
  | 3 => exact Or.inl rfl
  | n + 4 =>
    right
    unfold updSharedAfter
    rw [List.take_of_length_le (by simp)]
    rfl

/-- Claim C5: the gate rejects (downstream handler not invoked) exactly when
the text before the first colon of the remote origin does not parse as an
address or the store does not contain the parsed address; otherwise it
allows and delegates downstream; and in all cases the store slot is
unchanged by the call. -/
theorem ServeHTTP_reject_iff (cell : StoreCell) (remoteAddr : String) :
    ((ServeHTTP cell remoteAddr).decision = .reject ↔
      netParseIP ((splitOnChar ':' remoteAddr.data).headD []) = none ∨
      ∃ ip, netParseIP ((splitOnChar ':' remoteAddr.data).headD []) = some ip ∧
        ipstoreContains cell ip = false) ∧
    ((ServeHTTP cell remoteAddr).nextCalled = true ↔
      (ServeHTTP cell remoteAddr).decision = .allow) ∧
    (ServeHTTP cell remoteAddr).cell = cell := by
  simp only [List.headD_eq_head?]
  cases hp : netParseIP ((splitOnChar ':' remoteAddr.data).head?.getD []) with
  | none => simp [ServeHTTP, List.headD_eq_head?, hp]
  | some ip =>
    cases hc : ipstoreContains cell ip with
    | false => simp [ServeHTTP, List.headD_eq_head?, hp, hc]
    | true => simp [ServeHTTP, List.headD_eq_head?, hp, hc]

set_option maxRecDepth 4096 in
theorem land_255 : ∀ x : Nat, x < 256 → Nat.land x 255 = x := by decide

theorem maskedEq_allones : ∀ (b x : List Nat), b.length = x.length →
    (∀ y ∈ b, y < 256) → (∀ y ∈ x, y < 256) →
    (maskedEq b x (List.replicate b.length 255) = true ↔ b = x)
  | [], [], _, _, _ => by simp [maskedEq]
  | [], _ :: _, h, _, _ => by simp at h
  | _ :: _, [], h, _, _ => by simp at h
  | nb :: ns, xb :: xs, h, hb, hx => by
    have hnb := hb nb (List.mem_cons_self _ _)
    have hxb := hx xb (List.mem_cons_self _ _)
    have ih := maskedEq_allones ns xs (by simpa using h)
      (fun y hy => hb y (List.mem_cons_of_mem _ hy))
      (fun y hy => hx y (List.mem_cons_of_mem _ hy))
    simp only [List.length_cons, List.replicate_succ, maskedEq,
      Bool.and_eq_true, decide_eq_true_eq, land_255 nb hnb, land_255 xb hxb]
    rw [ih]
    simp

theorem parseIPv4_shape {s : List Char} {b : List Nat} (h : parseIPv4 s = some b) :
    b.length = 4 ∧ ∀ x ∈ b, x < 256 := by
  simp only [parseIPv4] at h
  split at h
  case isTrue hcond =>
    simp only [Bool.and_eq_true, decide_eq_true_eq, List.all_eq_true] at hcond
    cases h
    refine ⟨by simp [hcond.1], ?_⟩
    intro x hx
    simp only [List.mem_map] at hx
    obtain ⟨f, hf, rfl⟩ := hx
    have hv := hcond.2 f hf
    simp only [validV4Field, Bool.and_eq_true, decide_eq_true_eq] at hv
    omega
  case isFalse => exact absurd h (by simp)

theorem parseAddrCore_v4 {s : List Char} {b : List Nat}
    (h : parseAddrCore s = some (true, b)) : parseIPv4 s = some b := by
  unfold parseAddrCore at h
  cases hf : s.find? (fun c => c = '.' || c = ':' || c = '%') with
  | none => rw [hf] at h; exact absurd h (by simp)
  | some c =>
    rw [hf] at h
    dsimp only [] at h
    by_cases hc : c = '.'
    · rw [if_pos hc] at h
      cases hp : parseIPv4 s with
      | none => rw [hp] at h; exact absurd h (by simp)
      | some b' => rw [hp] at h; simp at h; rw [h]
    · rw [if_neg hc] at h
      by_cases hc2 : c = ':'
      · rw [if_pos hc2] at h
        cases hp : parseIPv6 s with
        | none => rw [hp] at h; exact absurd h (by simp)
        | some b' => rw [hp] at h; simp at h
      · rw [if_neg hc2] at h; exact absurd h (by simp)

theorem breakAtChar_first {sep : Char} : ∀ {s : List Char} (r : List Char),
    sep ∉ s → breakAtChar sep (s ++ sep :: r) = some (s, r)
  | [], r, _ => by simp [breakAtChar]
  | c :: s', r, hs => by
    have hc : ¬(c = sep) := fun h => hs (h ▸ List.mem_cons_self _ _)
    have ih := breakAtChar_first (s := s') r (fun h => hs (List.mem_cons_of_mem _ h))
    simp [breakAtChar, hc, ih]

theorem goTo4_of_length4 {ip : List Nat} (h : ip.length = 4) :
    goTo4 ip = some ip := by
  unfold goTo4
  rw [if_pos h]

theorem goTo4_length {ip x : List Nat} (h : goTo4 ip = some x) : x.length = 4 := by
  unfold goTo4 at h
  split at h
  case isTrue h4 => cases h; exact h4
  case isFalse =>
    split at h
    case isTrue h16 =>
      cases h
      simp only [Bool.and_eq_true, decide_eq_true_eq] at h16
      simp [h16.1]
    case isFalse => exact absurd h (by simp)

theorem goTo4_mem {ip x : List Nat} (h : goTo4 ip = some x) :
    ∀ y ∈ x, y ∈ ip := by
  unfold goTo4 at h
  split at h
  case isTrue => cases h; exact fun y hy => hy
  case isFalse =>
    split at h
    case isTrue => cases h; exact fun y hy => List.drop_subset _ _ hy
    case isFalse => exact absurd h (by simp)

/-- Claim C6, counterexample: for the bare IPv6 address ::1 parseCIDRs
appends the literal /32 (not /128), producing the range ::/32 whose mask is
not the all-ones /128 mask and which contains the distinct address ::2, so
the resulting range does not contain exactly the one address. -/
theorem parseCIDRs_bare_ipv6_not_single_cex :
    parseCIDRs ["::1"] = .ok
      [⟨List.replicate 16 0, [255, 255, 255, 255] ++ List.replicate 12 0⟩] ∧
    ([(255 : Nat), 255, 255, 255] ++ List.replicate 12 0 ≠ List.replicate 16 255) ∧
    netParseIP "::1".data = some (List.replicate 15 0 ++ [1]) ∧
    netParseIP "::2".data = some (List.replicate 15 0 ++ [2]) ∧
    ipNetContains ⟨List.replicate 16 0, [255, 255, 255, 255] ++ List.replicate 12 0⟩
      (List.replicate 15 0 ++ [2]) = true ∧
    (List.replicate 15 (0 : Nat) ++ [2] ≠ List.replicate 15 0 ++ [1]) :=
  ⟨rfl, by decide, rfl, rfl, by decide, by decide⟩

/-- Claim C6 as amended: for a syntactically valid bare IPv4 address (no
slash in the text) parse yields the expected /32 single-address range,
containing exactly the addresses whose To4 normal form is that address; for
a bare IPv6 address the code appends the same literal /32, yielding a
32-bit-prefix IPv6 range rather than a /128 single-address range. -/
theorem parseCIDRs_bare_address (s : String) (b : List Nat)
    (hs : s.data.contains '/' = false)
    (hv4 : parseAddrCore s.data = some (true, b)) :
    parseCIDRs [s] = .ok [⟨b, [255, 255, 255, 255]⟩] ∧
    ∀ ip, (∀ x ∈ ip, x < 256) →
      (ipNetContains ⟨b, [255, 255, 255, 255]⟩ ip = true ↔ goTo4 ip = some b) := by
  have hp4 := parseAddrCore_v4 hv4
  obtain ⟨hlen, hbnd⟩ := parseIPv4_shape hp4
  have hnotin : '/' ∉ s.data := by simpa using hs
  obtain ⟨b0, b1, b2, b3, rfl⟩ : ∃ a c d e, b = [a, c, d, e] := by
    match b, hlen with
    | [a, c, d, e], _ => exact ⟨a, c, d, e, rfl⟩
  have hzip : List.zipWith Nat.land [b0, b1, b2, b3] [255, 255, 255, 255] =
      [b0, b1, b2, b3] := by
    simp only [List.zipWith]
    rw [land_255 b0 (hbnd b0 (by simp)), land_255 b1 (hbnd b1 (by simp)),
      land_255 b2 (hbnd b2 (by simp)), land_255 b3 (hbnd b3 (by simp))]
  have hcidr : parseCIDR (s.data ++ ['/', '3', '2']) =
      some ⟨[b0, b1, b2, b3], [255, 255, 255, 255]⟩ := by
    have hbrk : breakAtChar '/' (s.data ++ '/' :: ['3', '2']) = some (s.data, ['3', '2']) :=
      breakAtChar_first _ hnotin
    have h1 : parseCIDR (s.data ++ ['/', '3', '2']) =
        match parseAddrCore s.data with
        | none => none
        | some (is4, bytes) =>
          let bitLen : Nat := if is4 then 32 else 128
          let d := dtoiLoop ['3', '2'] 0 0
          if d.2.2 && d.2.1 = (['3', '2'] : List Char).length && d.1 ≤ bitLen then
            let m := cidrMaskBytes d.1 (bitLen / 8)
            some ⟨List.zipWith Nat.land bytes m, m⟩
          else none := by
      unfold parseCIDR
      rw [show (s.data ++ ['/', '3', '2'] : List Char) = s.data ++ '/' :: ['3', '2'] from rfl,
        hbrk]
    rw [h1, hv4]
    dsimp only []
    rw [show dtoiLoop ['3', '2'] 0 0 = (32, 2, true) from rfl]
    norm_num
    exact ⟨hzip, rfl⟩
  constructor
  · have hbody : (if s.data.contains '/' then s.data else s.data ++ "/32".data) =
        s.data ++ ['/', '3', '2'] := by
      rw [hs]
      rfl
    show (match parseCIDR (if s.data.contains '/' then s.data else s.data ++ "/32".data) with
      | none => (.error "failed to parse CIDR" : Except String (List IPNet))
      | some n =>
        match parseCIDRs [] with
        | .error e => .error e
        | .ok ns => .ok (n :: ns)) = _
    rw [hbody, hcidr]
    rfl
  · intro ip hip
    have hnet : networkNumberAndMask ⟨[b0, b1, b2, b3], [255, 255, 255, 255]⟩ =
        ([b0, b1, b2, b3], [255, 255, 255, 255]) := by
      unfold networkNumberAndMask
      rw [goTo4_of_length4 hlen]
      rfl
    cases hg4 : goTo4 ip with
    | none =>
      have hlip : ip.length ≠ 4 := by
        intro h4
        rw [goTo4_of_length4 h4] at hg4
        cases hg4
      simp [ipNetContains, hnet, hg4, hlip]
    | some x =>
      have hx4 := goTo4_length hg4
      have hxbnd : ∀ y ∈ x, y < 256 := fun y hy => hip y (goTo4_mem hg4 y hy)
      have hme := maskedEq_allones [b0, b1, b2, b3] x (by rw [hlen, hx4]) hbnd hxbnd
      rw [show (([b0, b1, b2, b3] : List Nat).length) = 4 from rfl] at hme
      rw [show List.replicate 4 (255 : Nat) = [255, 255, 255, 255] from rfl] at hme
      simp only [ipNetContains, hnet, hg4, hx4]
      rw [show (([b0, b1, b2, b3] : List Nat).length) = 4 from rfl, if_pos rfl, hme]
      simp [eq_comm]

theorem parseCIDRs_bare_address_witness :
    parseCIDRs ["203.0.113.7"] =
      .ok [⟨[203, 0, 113, 7], [255, 255, 255, 255]⟩] :=
  (parseCIDRs_bare_address "203.0.113.7" [203, 0, 113, 7] rfl rfl).1

theorem splitOnChar_ne_nil (sep : Char) : ∀ s : List Char, splitOnChar sep s ≠ []
  | [] => by simp [splitOnChar]
  | c :: rest => by
    simp only [splitOnChar]
    split
    · simp
    · split
      · simp
      · simp

theorem splitOnChar_headD (sep : Char) : ∀ s : List Char,
    (splitOnChar sep s).headD [] = s.takeWhile (fun c => !(c = sep))
  | [] => rfl
  | c :: rest => by
    by_cases hc : c = sep
    · subst hc
      simp [splitOnChar, List.takeWhile_cons]
    · have ih := splitOnChar_headD sep rest
      simp only [splitOnChar, if_neg hc]
      rcases hsp : splitOnChar sep rest with _ | ⟨h, t⟩
      · exact absurd hsp (splitOnChar_ne_nil sep rest)
      · rw [hsp] at ih
        simp only [List.headD_cons] at ih
        simp [List.takeWhile_cons, hc, ih]

theorem takeWhile_append_stop {p : Char → Bool} (c0 : Char) (t : List Char)
    (hc : p c0 = false) : ∀ g : List Char, (∀ c ∈ g, p c = true) →
    (g ++ c0 :: t).takeWhile p = g
  | [], _ => by simp [List.takeWhile_cons, hc]
  | a :: g', hg => by
    have ha := hg a (List.mem_cons_self _ _)
    have ih := takeWhile_append_stop c0 t hc g'
      (fun c hcm => hg c (List.mem_cons_of_mem _ hcm))
    simp [List.takeWhile_cons, ha, ih]

theorem leadingHex_split : ∀ (s : List Char) (acc k acc' k' : Nat) (rest : List Char),
    leadingHex s acc k = some (acc', k', rest) →
    ∃ taken, s = taken ++ rest ∧ (∀ c ∈ taken, (chHexVal c).isSome) ∧
      taken.length + k = k'
  | [], acc, k, acc', k', rest, h => by
    simp only [leadingHex, Option.some.injEq, Prod.mk.injEq] at h
    obtain ⟨-, hk, hrest⟩ := h
    exact ⟨[], by simp [← hrest], by simp, by simp [hk]⟩
  | c :: s', acc, k, acc', k', rest, h => by
    rw [leadingHex] at h
    cases hv : chHexVal c with
    | none =>
      rw [hv] at h
      simp only [Option.some.injEq, Prod.mk.injEq] at h
      obtain ⟨-, hk, hrest⟩ := h
      exact ⟨[], by simp [← hrest], by simp, by simp [hk]⟩
    | some v =>
      rw [hv] at h
      dsimp only [] at h
      split at h
      · exact absurd h (by simp)
      · obtain ⟨taken', hsplit, hhex, hlen⟩ :=
          leadingHex_split s' (acc * 16 + v) (k + 1) acc' k' rest h
        refine ⟨c :: taken', by simp [hsplit], ?_, by simp [← hlen]; omega⟩
        intro x hx
        rcases List.mem_cons.mp hx with rfl | hx'
        · simp [hv]
        · exact hhex x hx'

theorem v6default_structure {s : List Char} {r : List Nat}
    (h : v6finish (v6loop (s.length + 1) s 0 [] none) = some r) :
    ∃ g t, s = g ++ ':' :: t ∧ g ≠ [] ∧ ∀ c ∈ g, (chHexVal c).isSome := by
  rw [show s.length + 1 = s.length + 1 from rfl] at h
  rw [v6loop] at h
  rw [if_neg (by norm_num)] at h
  cases hlh : leadingHex s 0 0 with
  | none =>
    rw [hlh] at h
    simp [v6finish] at h
  | some p =>
    obtain ⟨acc, k, rest⟩ := p
    rw [hlh] at h
    dsimp only [] at h
    by_cases hk : k = 0
    · rw [if_pos hk] at h
      simp [v6finish] at h
    rw [if_neg hk] at h
    by_cases hdot : rest.head? = some '.'
    · rw [if_pos hdot, if_pos (by decide)] at h
      simp [v6finish] at h
    rw [if_neg hdot] at h
    rcases rest with _ | ⟨c, rest2⟩
    · simp [v6finish] at h
    dsimp only [] at h
    by_cases hcol : c = ':'
    · obtain ⟨taken, hsplit, hhex, hlen⟩ := leadingHex_split s 0 0 acc k (c :: rest2) hlh
      refine ⟨taken, rest2, ?_, ?_, hhex⟩
      · rw [hsplit, hcol]
      · intro hnil
        rw [hnil] at hlen
        exact hk (by simpa using hlen.symm)
    · rw [if_pos hcol] at h
      simp [v6finish] at h

theorem parseIPv6_structure {s : List Char} {r : List Nat}
    (h : parseIPv6 s = some r) :
    (∃ t, s = ':' :: ':' :: t) ∨
      (∃ g t, s = g ++ ':' :: t ∧ g ≠ [] ∧ ∀ c ∈ g, (chHexVal c).isSome) := by
  unfold parseIPv6 at h
  split at h
  · exact absurd h (by simp)
  · split at h
    case h_1 t _ => exact Or.inl ⟨t, rfl⟩
    case h_2 => exact Or.inr (v6default_structure h)

theorem hex_not_special {c : Char} (h : (chHexVal c).isSome = true) :
    (c = '.' || c = ':' || c = '%') = false := by
  by_contra hb
  rw [Bool.not_eq_false, Bool.or_eq_true, Bool.or_eq_true] at hb
  rcases hb with (h1 | h1) | h1 <;>
    (rw [decide_eq_true_eq] at h1; subst h1; exact absurd h (by decide))

theorem netParseIP_no_special {l : List Char}
    (h : ∀ c ∈ l, (c = '.' || c = ':' || c = '%') = false) : netParseIP l = none := by
  have hf : l.find? (fun c => c = '.' || c = ':' || c = '%') = none :=
    List.find?_eq_none.mpr (fun x hx => by rw [h x hx]; exact Bool.false_ne_true)
  unfold netParseIP parseAddrCore
  rw [hf]
  rfl

theorem ServeHTTP_of_parse_none {cell : StoreCell} {remoteAddr : String}
    (h : netParseIP ((splitOnChar ':' remoteAddr.data).headD []) = none) :
    (ServeHTTP cell remoteAddr).decision = .reject := by
  simp only [ServeHTTP, List.headD_eq_head?] at *
  rw [h]

theorem myString_data_append (a b : String) : (a ++ b).data = a.data ++ b.data := by
  cases a
  cases b
  rfl

/-- Claim C10: a request whose transport-level remote origin is an IPv6
address, bracketed with a port or bare, is rejected whatever the current
trusted set holds: the host part is the text before the first colon, which
for an IPv6 origin is an empty or pure-hex fragment (with a leading bracket
in the bracketed form) that net.ParseIP cannot parse. -/
theorem ServeHTTP_rejects_ipv6_origin (cell : StoreCell) (s port : String)
    (h : (parseIPv6 s.data).isSome = true) :
    (ServeHTTP cell s).decision = .reject ∧
      (ServeHTTP cell ("[" ++ s ++ "]:" ++ port)).decision = .reject := by
  obtain ⟨r, hr⟩ := Option.isSome_iff_exists.mp h
  have hdata : ("[" ++ s ++ "]:" ++ port).data =
      '[' :: (s.data ++ (']' :: ':' :: port.data)) := by
    rw [myString_data_append, myString_data_append, myString_data_append]
    simp [List.append_assoc]
  rcases parseIPv6_structure hr with ⟨t, hst⟩ | ⟨g, t, hst, hg0, hghex⟩
  · constructor
    · apply ServeHTTP_of_parse_none
      rw [splitOnChar_headD, hst]
      simp [List.takeWhile_cons]
      decide
    · apply ServeHTTP_of_parse_none
      rw [splitOnChar_headD, hdata, hst]
      simp [List.takeWhile_cons]
      decide
  · have hg : ∀ c ∈ g, (!(c = ':') : Bool) = true := by
      intro c hcm
      have := hex_not_special (hghex c hcm)
      rw [Bool.or_eq_false_iff, Bool.or_eq_false_iff] at this
      simp [this.1.2]
    constructor
    · apply ServeHTTP_of_parse_none
      rw [splitOnChar_headD, hst, takeWhile_append_stop ':' t (by simp) g hg]
      apply netParseIP_no_special
      intro c hcm
      exact hex_not_special (hghex c hcm)
    · apply ServeHTTP_of_parse_none
      rw [splitOnChar_headD, hdata, hst, List.takeWhile_cons]
      rw [if_pos (by decide), List.append_assoc]
      rw [show (':' :: t) ++ (']' :: ':' :: port.data) =
        ':' :: (t ++ (']' :: ':' :: port.data)) from rfl]
      rw [takeWhile_append_stop ':' _ (by simp) g hg]
      apply netParseIP_no_special
      intro c hcm
      rcases List.mem_cons.mp hcm with rfl | hcm'
      · decide
      · exact hex_not_special (hghex c hcm')

theorem ServeHTTP_rejects_ipv6_origin_witness :
    (ServeHTTP (some []) "::1").decision = .reject ∧
      (ServeHTTP (some []) ("[" ++ "::1" ++ "]:" ++ "80")).decision = .reject :=
  ServeHTTP_rejects_ipv6_origin (some []) "::1" "80" (by decide)
